import Mathlib

/-!
Verification development for the VP8 inter-frame decode path of this
repository (files motion.go, interpred.go and the mode-parsing file).
Go code is shallowly embedded: machine int16 arithmetic is Int with an
explicit reduction modulo 2^16, byte planes are functions into Fin 256,
and the boolean entropy decoder (which lives outside the sources) is
modelled as the stream of bits it hands back.
-/

namespace VP8

/-- Reduction of an Int into the signed 16-bit range, the semantics of every
Go int16 operation (conversion, +, -, *, <<) that can overflow. -/
def wrap16 (n : Int) : Int := (n + 32768) % 65536 - 32768

/-- n is representable as a Go int16 (no wrap happens when narrowing). -/
def inInt16 (n : Int) : Prop := -32768 ≤ n ∧ n ≤ 32767

instance (n : Int) : Decidable (inInt16 n) := by unfold inInt16; infer_instance

theorem wrap16_eq_self {n : Int} (h : inInt16 n) : wrap16 n = n := by
  obtain ⟨h1, h2⟩ := h; unfold wrap16; omega

theorem wrap16_inInt16 (n : Int) : inInt16 (wrap16 n) := by
  unfold wrap16 inInt16; omega

theorem wrap16_add_left (a b : Int) : wrap16 (wrap16 a + b) = wrap16 (a + b) := by
  unfold wrap16; omega

/-- A motion vector with quarter-pixel precision (motion.go, type motionVector;
x and y are Go int16 values, held here as Ints in the int16 range). -/
structure motionVector where
  x : Int
  y : Int
deriving DecidableEq, Repr

/-- The zero motion vector (motion.go, mvZero). -/
def mvZero : motionVector := { x := 0, y := 0 }

/-- addMV from motion.go; the int16 additions wrap. -/
def addMV (a b : motionVector) : motionVector :=
  { x := wrap16 (a.x + b.x), y := wrap16 (a.y + b.y) }

/-- Componentwise int16 negation, as performed in-place on the candidate
array in findBestMV (`candidates[i].x = -candidates[i].x`). -/
def negMV (m : motionVector) : motionVector :=
  { x := wrap16 (-m.x), y := wrap16 (-m.y) }

/-- Modelled from the spec: the boolean entropy decoder (spec §4.1; the
readBit implementation is not among the sources).  We model the decoder by
the stream of bits it returns; the probability passed to each call does not
change which bit comes back but is recorded in a trace so that statements
about which probability-table entries a routine consumes can be made. -/
structure BoolDec where
  bits : List Bool
  trace : List Nat
deriving DecidableEq, Repr

/-- Modelled from the spec: one readBit call (spec §4.1).  Consumes the next
bit of the stream (an exhausted stream yields false, the truncation error
path) and logs the probability it was called with. -/
def readBit (prob : Nat) (s : BoolDec) : Bool × BoolDec :=
  match s.bits with
  | [] => (false, { bits := [], trace := s.trace ++ [prob] })
  | b :: rest => (b, { bits := rest, trace := s.trace ++ [prob] })

/-- Indices into the MV probability table (motion.go). -/
def mvpIsShort : Nat := 0

/-- Index of the sign probability (motion.go). -/
def mvpSign : Nat := 1

/-- First index of the short-tree probabilities (motion.go). -/
def mvpShort : Nat := 2

/-- First index of the long-path bit probabilities (motion.go). -/
def mvpBits : Nat := 9

/-- readMVComponent from motion.go.  `p` is the row d.mvProb[comp] of the
probability table, as a function from index to entry.  The magnitude is
accumulated with bitwise or exactly as the Go code does (`mag |= 1 << k`);
it stays below 2^15 so the Go int16 never wraps and Nat accumulation is
exact.  The two magnitude loops are unrolled to their concrete index
sequences: i = 0,1,2 for the high bits and i = 9,8,7,6,5,4 for the low
bits (the Go loop `for i := 9; i > 3; i--`). -/
def readMVComponent (p : Nat → Nat) (s : BoolDec) : Int × BoolDec :=
  match readBit (p mvpIsShort) s with
  | (true, s) =>
    -- Long MV path.
    let step : Nat → Nat → Nat × BoolDec → Nat × BoolDec := fun probIdx bitPos acc =>
      match readBit (p probIdx) acc.2 with
      | (b, s) => (if b then acc.1 ||| (1 <<< bitPos) else acc.1, s)
    -- Read bits 9,8,7 under p[mvpBits+i] for i = 0,1,2.
    let acc := step (mvpBits + 0) 9 (0, s)
    let acc := step (mvpBits + 1) 8 acc
    let acc := step (mvpBits + 2) 7 acc
    -- Go low-bit loop: for i := 9; i > 3; i--, probability p[mvpBits+i-3],
    -- bit position i-3.
    let acc := step (mvpBits + 9 - 3) 6 acc
    let acc := step (mvpBits + 8 - 3) 5 acc
    let acc := step (mvpBits + 7 - 3) 4 acc
    let acc := step (mvpBits + 6 - 3) 3 acc
    let acc := step (mvpBits + 5 - 3) 2 acc
    let acc := step (mvpBits + 4 - 3) 1 acc
    let mag : Nat := acc.1 + 8
    match readBit (p mvpSign) acc.2 with
    | (true, s) => (-(mag : Int), s)
    | (false, s) => ((mag : Int), s)
  | (false, s) =>
    -- Short MV path: tree decode values 0-7.
    let magAnd : Int × BoolDec :=
      match readBit (p mvpShort) s with
      | (true, s) =>
        match readBit (p (mvpShort + 2)) s with
        | (true, s) =>
          match readBit (p (mvpShort + 4)) s with
          | (true, s) => (7, s)
          | (false, s) => (6, s)
        | (false, s) =>
          match readBit (p (mvpShort + 3)) s with
          | (true, s) => (5, s)
          | (false, s) => (4, s)
      | (false, s) =>
        match readBit (p (mvpShort + 1)) s with
        | (true, s) =>
          match readBit (p (mvpShort + 5)) s with
          | (true, s) => (3, s)
          | (false, s) => (2, s)
        | (false, s) =>
          match readBit (p (mvpShort + 6)) s with
          | (true, s) => (1, s)
          | (false, s) => (0, s)
    -- Go: `if mag != 0 && d.fp.readBit(p[mvpSign])` - the sign bit is read
    -- only when the magnitude is nonzero.
    if magAnd.1 ≠ 0 then
      match readBit (p mvpSign) magAnd.2 with
      | (true, s) => (-magAnd.1, s)
      | (false, s) => (magAnd.1, s)
    else magAnd

/-- readMV from motion.go: component 0 is y, component 1 is x, each scaled
by 4 to quarter-pixel units (an int16 multiplication). -/
def readMV (mvProb : Nat → Nat → Nat) (s : BoolDec) : motionVector × BoolDec :=
  match readMVComponent (mvProb 0) s with
  | (c0, s) =>
    match readMVComponent (mvProb 1) s with
    | (c1, s) => ({ y := wrap16 (c0 * 4), x := wrap16 (c1 * 4) }, s)

/-- C1: in the long path of readMVComponent, on the stream whose next 11
decoded bits are all 1, the decoder consumes the probabilities
p[0],p[9],p[10],p[11],p[15],p[14],p[13],p[12],p[11],p[10],p[1] (entries 16,
17 and 18 are never consumed, 10 and 11 twice) and returns -1030: six low
bits go into positions 6..1, bit position 0 is never set and the magnitude
before negation is the even number 1030.  The claim requires the seven low
bits to be read under p[12..18] into positions 6..0 (magnitude 1031 here). -/
theorem claim_C1_long_path_eval :
    readMVComponent (fun i => i) { bits := List.replicate 11 true, trace := [] }
        = (-1030, { bits := [], trace := [0, 9, 10, 11, 15, 14, 13, 12, 11, 10, 1] }) ∧
      (16 : Nat) ∉ [0, 9, 10, 11, 15, 14, 13, 12, 11, 10, 1] ∧
      (17 : Nat) ∉ [0, 9, 10, 11, 15, 14, 13, 12, 11, 10, 1] ∧
      (18 : Nat) ∉ [0, 9, 10, 11, 15, 14, 13, 12, 11, 10, 1] ∧
      (1030 : Int) % 2 = 0 := by
  refine ⟨by decide, by decide, by decide, by decide, by decide⟩

/-- The lower x clamp bound of clampMV (motion.go line 155):
`int16((-mbx*16 - 16) * 4) - margin`, where margin = int16(64).  The product
is computed in Go int (wide, exact), narrowed to int16, and only then is the
margin subtracted - in int16 arithmetic, which wraps. -/
def clampMinX (mbx : Int) : Int := wrap16 (wrap16 ((-mbx * 16 - 16) * 4) - 64)

/-- The upper x clamp bound of clampMV (motion.go line 156):
`int16((d.mbw-mbx)*16*4) + margin` with the addition in int16. -/
def clampMaxX (mbw mbx : Int) : Int := wrap16 (wrap16 ((mbw - mbx) * 16 * 4) + 64)

/-- The lower y clamp bound of clampMV (motion.go line 157). -/
def clampMinY (mby : Int) : Int := wrap16 (wrap16 ((-mby * 16 - 16) * 4) - 64)

/-- The upper y clamp bound of clampMV (motion.go line 158). -/
def clampMaxY (mbh mby : Int) : Int := wrap16 (wrap16 ((mbh - mby) * 16 * 4) + 64)

/-- clampMV from motion.go: clips each component to the bounds above. -/
def clampMV (mbw mbh : Int) (mv : motionVector) (mbx mby : Int) : motionVector :=
  let minX := clampMinX mbx
  let maxX := clampMaxX mbw mbx
  let minY := clampMinY mby
  let maxY := clampMaxY mbh mby
  let x := if mv.x < minX then minX else if mv.x > maxX then maxX else mv.x
  let y := if mv.y < minY then minY else if mv.y > maxY then maxY else mv.y
  { x := x, y := y }

/-- The claim's no-wrap condition: every intermediate of the bound
computation for macroblock (mbx, mby) - the wide product being narrowed and
the int16 margin addition or subtraction - stays in the signed 16-bit
range. -/
def clampBoundsNoWrap (mbw mbh mbx mby : Int) : Prop :=
  inInt16 ((-mbx * 16 - 16) * 4) ∧ inInt16 ((-mbx * 16 - 16) * 4 - 64) ∧
  inInt16 ((mbw - mbx) * 16 * 4) ∧ inInt16 ((mbw - mbx) * 16 * 4 + 64) ∧
  inInt16 ((-mby * 16 - 16) * 4) ∧ inInt16 ((-mby * 16 - 16) * 4 - 64) ∧
  inInt16 ((mbh - mby) * 16 * 4) ∧ inInt16 ((mbh - mby) * 16 * 4 + 64)

instance (mbw mbh mbx mby : Int) : Decidable (clampBoundsNoWrap mbw mbh mbx mby) := by
  unfold clampBoundsNoWrap; infer_instance

/-- VP8 frame dimensions are 14-bit (RFC 6386 §9.1, at most 16383 pixels),
so a frame has at most 1024 macroblocks per dimension.  The frame-header
parser is outside the sources; this constant records what VP8 permits. -/
def vp8MaxMBDim : Int := 1024

/-- C3 counterexample: at the VP8-permitted frame width mbw = 512 (frame
8192 pixels wide) and macroblock column mbx = 0, the intermediate
(mbw-mbx)*16*4 = 32768 does not fit in int16, so the narrowing wraps and
the claim's "no intermediate of the bound computation wraps in the narrow
16-bit type" is false; the computed upper bound comes out as -32704. -/
theorem claim_C3_counterexample :
    (512 : Int) ≤ vp8MaxMBDim ∧
      ¬ clampBoundsNoWrap 512 1 0 0 ∧
      ¬ inInt16 ((512 - 0) * 16 * 4) ∧
      clampMaxX 512 0 = -32704 := by
  refine ⟨by decide, by decide, by decide, by decide⟩

/-- C3 amended: the final clamp interval always equals the §4.5 expressions
evaluated exactly in wide (32-bit) signed arithmetic and then narrowed to
int16 - the code narrows before applying the 64-unit margin, but by modular
congruence the resulting int16 bounds coincide.  The no-wrap part of the
claim holds only for frames with mbw, mbh ≤ 510: under that restriction
(and valid macroblock coordinates) no intermediate of the bound computation
wraps in the 16-bit type. -/
theorem claim_C3_amended (mbw mbh mbx mby : Int) :
    (clampMinX mbx = wrap16 ((-mbx * 16 - 16) * 4 - 64) ∧
      clampMaxX mbw mbx = wrap16 ((mbw - mbx) * 16 * 4 + 64) ∧
      clampMinY mby = wrap16 ((-mby * 16 - 16) * 4 - 64) ∧
      clampMaxY mbh mby = wrap16 ((mbh - mby) * 16 * 4 + 64)) ∧
    (0 ≤ mbx → mbx < mbw → mbw ≤ 510 → 0 ≤ mby → mby < mbh → mbh ≤ 510 →
      clampBoundsNoWrap mbw mbh mbx mby) := by
  constructor
  · refine ⟨?_, ?_, ?_, ?_⟩ <;>
      simp only [clampMinX, clampMaxX, clampMinY, clampMaxY, wrap16] <;> omega
  · intro h1 h2 h3 h4 h5 h6
    unfold clampBoundsNoWrap inInt16
    constructor
    · constructor <;> nlinarith
    constructor
    · constructor <;> nlinarith
    constructor
    · constructor <;> nlinarith
    constructor
    · constructor <;> nlinarith
    constructor
    · constructor <;> nlinarith
    constructor
    · constructor <;> nlinarith
    constructor
    · constructor <;> nlinarith
    constructor <;> nlinarith

/-- C3 witness: the amended theorem applied at mbw = mbh = 2, mbx = mby = 1. -/
theorem claim_C3_witness :
    clampMinX 1 = wrap16 ((-1 * 16 - 16) * 4 - 64) ∧ clampBoundsNoWrap 2 2 1 1 :=
  ⟨(claim_C3_amended 2 2 1 1).1.1,
    (claim_C3_amended 2 2 1 1).2 (by decide) (by decide) (by decide) (by decide)
      (by decide) (by decide)⟩

/-- Reference frame tag INTRA (mode-parsing file). -/
def refFrameIntra : Nat := 0

/-- Reference frame tag LAST (mode-parsing file). -/
def refFrameLast : Nat := 1

/-- Reference frame tag GOLDEN (mode-parsing file). -/
def refFrameGolden : Nat := 2

/-- Reference frame tag ALTREF (mode-parsing file). -/
def refFrameAltRef : Nat := 3

/-- The per-macroblock inputs of the inter mode parser: position, frame
size in macroblocks, the neighbour context (left, above, and - standing for
d.upRefFrame[mbx-1] and d.upMV[mbx-1] - the above-left slot), the sign-bias
table and the current reference frame. -/
structure MBCtx where
  mbw : Nat
  mbh : Nat
  mbx : Nat
  mby : Nat
  leftRefFrame : Nat
  leftMV : motionVector
  aboveRefFrame : Nat
  aboveMV : motionVector
  upRefFrame : Nat
  upMV : motionVector
  signBias : Nat → Bool
  refFrame : Nat

/-- The candidate collection of findBestMV (mode-parsing file, lines
363-386): LEFT, then ABOVE, then ABOVE-LEFT, each included only when in
frame and not INTRA, paired with its reference frame. -/
def findBestMVCandidates (ctx : MBCtx) : List (motionVector × Nat) :=
  (if 0 < ctx.mbx ∧ ctx.leftRefFrame ≠ refFrameIntra
    then [(ctx.leftMV, ctx.leftRefFrame)] else []) ++
  (if 0 < ctx.mby ∧ ctx.aboveRefFrame ≠ refFrameIntra
    then [(ctx.aboveMV, ctx.aboveRefFrame)] else []) ++
  (if 0 < ctx.mbx ∧ 0 < ctx.mby ∧ ctx.upRefFrame ≠ refFrameIntra
    then [(ctx.upMV, ctx.upRefFrame)] else [])

/-- One iteration of the nearest/near selection loop of findBestMV
(mode-parsing file, lines 399-408), acting on the (nearest, near)
accumulator. -/
def findBestMVStep (acc : motionVector × motionVector) (c : motionVector) :
    motionVector × motionVector :=
  if c ≠ mvZero then
    if acc.1 = mvZero then (c, acc.2)
    else if c ≠ acc.1 ∧ acc.2 = mvZero then (acc.1, c)
    else acc
  else acc

/-- findBestMV from the mode-parsing file: collect the neighbour
candidates, negate those whose sign bias differs from the current
reference's, then run the selection loop starting from (0, 0). -/
def findBestMV (ctx : MBCtx) : motionVector × motionVector :=
  ((findBestMVCandidates ctx).map fun cr =>
    if ctx.signBias cr.2 ≠ ctx.signBias ctx.refFrame then negMV cr.1 else cr.1).foldl
    findBestMVStep (mvZero, mvZero)

/-- Stated from the claim: nearest is the first non-zero candidate (zero
when there is none). -/
def specSelectNearest (l : List motionVector) : motionVector :=
  (l.find? fun c => decide (c ≠ mvZero)).getD mvZero

/-- Stated from the claim: near is the first candidate after the nearest
one that is non-zero and different from nearest (zero when there is none). -/
def specSelectNear (l : List motionVector) : motionVector :=
  (((l.dropWhile fun c => decide (c = mvZero)).drop 1).find?
    fun c => decide (c ≠ mvZero ∧ c ≠ specSelectNearest l)).getD mvZero

/-- Stated from the claim: inspect LEFT, ABOVE, ABOVE-LEFT in order,
skipping out-of-frame (mbx = 0 or mby = 0) and INTRA neighbours; negate a
candidate componentwise iff its reference's sign-bias flag differs from the
current reference's (leave it unchanged when the flags agree); then select
nearest and near by the first-non-zero rules. -/
def specIncluded (ctx : MBCtx) : List (motionVector × Nat) :=
  (if ctx.mbx = 0 ∨ ctx.leftRefFrame = refFrameIntra
    then [] else [(ctx.leftMV, ctx.leftRefFrame)]) ++
  (if ctx.mby = 0 ∨ ctx.aboveRefFrame = refFrameIntra
    then [] else [(ctx.aboveMV, ctx.aboveRefFrame)]) ++
  (if ctx.mbx = 0 ∨ ctx.mby = 0 ∨ ctx.upRefFrame = refFrameIntra
    then [] else [(ctx.upMV, ctx.upRefFrame)])

def findBestMVSpec (ctx : MBCtx) : motionVector × motionVector :=
  ((specIncluded ctx).map fun cr =>
    if ctx.signBias cr.2 = ctx.signBias ctx.refFrame then cr.1 else negMV cr.1)
    |> fun cands => (specSelectNearest cands, specSelectNear cands)

theorem findBestMVStep_stable (l : List motionVector) (n m : motionVector)
    (hn : n ≠ mvZero) (hm : m ≠ mvZero) :
    l.foldl findBestMVStep (n, m) = (n, m) := by
  induction l with
  | nil => rfl
  | cons c t ih =>
    have hstep : findBestMVStep (n, m) c = (n, m) := by
      unfold findBestMVStep
      split_ifs <;> simp_all
    simp only [List.foldl_cons, hstep, ih]

theorem findBestMVStep_near (l : List motionVector) (n : motionVector)
    (hn : n ≠ mvZero) :
    l.foldl findBestMVStep (n, mvZero)
      = (n, (l.find? fun c => decide (c ≠ mvZero ∧ c ≠ n)).getD mvZero) := by
  induction l with
  | nil => rfl
  | cons c t ih =>
    by_cases hc : c ≠ mvZero ∧ c ≠ n
    · have hstep : findBestMVStep (n, mvZero) c = (n, c) := by
        unfold findBestMVStep
        split_ifs <;> simp_all
      have hfind : ((c :: t).find? fun d => decide (d ≠ mvZero ∧ d ≠ n)) = some c :=
        List.find?_cons_of_pos _ (by simpa using hc)
      simp only [List.foldl_cons, hstep, hfind, Option.getD_some]
      exact findBestMVStep_stable t n c hn hc.1
    · have hstep : findBestMVStep (n, mvZero) c = (n, mvZero) := by
        unfold findBestMVStep
        split_ifs <;> simp_all
      have hfind : ((c :: t).find? fun d => decide (d ≠ mvZero ∧ d ≠ n))
          = (t.find? fun d => decide (d ≠ mvZero ∧ d ≠ n)) :=
        List.find?_cons_of_neg _ (by simpa using hc)
      simp only [List.foldl_cons, hstep, hfind, ih]

theorem findBestMV_fold_spec (l : List motionVector) :
    l.foldl findBestMVStep (mvZero, mvZero) = (specSelectNearest l, specSelectNear l) := by
  induction l with
  | nil => rfl
  | cons c t ih =>
    by_cases hc : c = mvZero
    · subst hc
      have hstep : findBestMVStep (mvZero, mvZero) mvZero = (mvZero, mvZero) := by
        unfold findBestMVStep; simp
      have hnearest : specSelectNearest (mvZero :: t) = specSelectNearest t := by
        unfold specSelectNearest
        rw [List.find?_cons_of_neg _ (by simp)]
      have hnear : specSelectNear (mvZero :: t) = specSelectNear t := by
        unfold specSelectNear
        rw [hnearest, List.dropWhile_cons_of_pos (by simp)]
      simp only [List.foldl_cons, hstep, ih, hnearest, hnear]
    · have hstep : findBestMVStep (mvZero, mvZero) c = (c, mvZero) := by
        unfold findBestMVStep
        split_ifs with h1 h2 <;> simp_all
      have hnearest : specSelectNearest (c :: t) = c := by
        unfold specSelectNearest
        rw [List.find?_cons_of_pos _ (by simpa using hc)]
        rfl
      have hnear : specSelectNear (c :: t)
          = (t.find? fun d => decide (d ≠ mvZero ∧ d ≠ c)).getD mvZero := by
        unfold specSelectNear
        rw [hnearest, List.dropWhile_cons_of_neg (by simpa using hc)]
        simp
      simp only [List.foldl_cons, hstep, hnearest, hnear]
      exact findBestMVStep_near t c hc

/-- C5: findBestMV computes exactly the claim's description - candidates in
the order LEFT, ABOVE, ABOVE-LEFT with out-of-frame and INTRA neighbours
skipped, sign-bias negation applied exactly when the flags differ, nearest
the first non-zero candidate, near the first subsequent candidate that is
non-zero and different from nearest, and zero defaults throughout (so with
no inter-coded neighbour both outputs are (0,0)). -/
theorem claim_C5_findBestMV_refines_spec (ctx : MBCtx) :
    findBestMV ctx = findBestMVSpec ctx := by
  unfold findBestMV findBestMVSpec
  have hlist : findBestMVCandidates ctx = specIncluded ctx := by
    unfold findBestMVCandidates specIncluded
    simp only [refFrameIntra]
    have e1 : (if 0 < ctx.mbx ∧ ctx.leftRefFrame ≠ 0
          then [(ctx.leftMV, ctx.leftRefFrame)] else ([] : List (motionVector × Nat)))
        = (if ctx.mbx = 0 ∨ ctx.leftRefFrame = 0
          then [] else [(ctx.leftMV, ctx.leftRefFrame)]) := by
      split_ifs <;> first | rfl | (exfalso; omega)
    have e2 : (if 0 < ctx.mby ∧ ctx.aboveRefFrame ≠ 0
          then [(ctx.aboveMV, ctx.aboveRefFrame)] else ([] : List (motionVector × Nat)))
        = (if ctx.mby = 0 ∨ ctx.aboveRefFrame = 0
          then [] else [(ctx.aboveMV, ctx.aboveRefFrame)]) := by
      split_ifs <;> first | rfl | (exfalso; omega)
    have e3 : (if 0 < ctx.mbx ∧ 0 < ctx.mby ∧ ctx.upRefFrame ≠ 0
          then [(ctx.upMV, ctx.upRefFrame)] else ([] : List (motionVector × Nat)))
        = (if ctx.mbx = 0 ∨ ctx.mby = 0 ∨ ctx.upRefFrame = 0
          then [] else [(ctx.upMV, ctx.upRefFrame)]) := by
      split_ifs <;> first | rfl | (exfalso; omega)
    rw [e1, e2, e3]
  have hmap : ∀ cr : motionVector × Nat,
      (if ctx.signBias cr.2 ≠ ctx.signBias ctx.refFrame then negMV cr.1 else cr.1)
        = (if ctx.signBias cr.2 = ctx.signBias ctx.refFrame then cr.1 else negMV cr.1) := by
    intro cr; split_ifs with h1 h2 <;> simp_all
  rw [hlist, List.map_congr_left (fun cr _ => hmap cr)]
  exact findBestMV_fold_spec _

theorem specSelectNearest_zero {l : List motionVector}
    (h : specSelectNearest l = mvZero) : specSelectNear l = mvZero := by
  have hnone : (l.find? fun c => decide (c ≠ mvZero)) = none := by
    cases hf : (l.find? fun c => decide (c ≠ mvZero)) with
    | none => rfl
    | some a =>
      have ha := List.find?_some hf
      have : a = mvZero := by
        have := h
        unfold specSelectNearest at this
        rw [hf] at this
        simpa using this
      simp [this] at ha
  have hall : ∀ c ∈ l, c = mvZero := by
    intro c hcl
    have := List.find?_eq_none.mp hnone c hcl
    simpa using this
  have hdrop : (l.dropWhile fun c => decide (c = mvZero)) = [] := by
    rw [List.dropWhile_eq_nil_iff]
    intro c hcl
    simpa using hall c hcl
  unfold specSelectNear
  rw [hdrop]
  rfl

theorem specSelectNear_props {l : List motionVector}
    (h : specSelectNear l ≠ mvZero) :
    specSelectNearest l ≠ mvZero ∧ specSelectNear l ≠ specSelectNearest l := by
  have hnz : specSelectNearest l ≠ mvZero := by
    intro hz
    exact h (specSelectNearest_zero hz)
  refine ⟨hnz, ?_⟩
  unfold specSelectNear at h ⊢
  cases hf : (((l.dropWhile fun c => decide (c = mvZero)).drop 1).find?
      fun c => decide (c ≠ mvZero ∧ c ≠ specSelectNearest l)) with
  | none =>
    simp only [Option.getD_none]
    exact Ne.symm hnz
  | some a =>
    have ha := List.find?_some hf
    simp only [Option.getD_some]
    have hpa : a ≠ mvZero ∧ a ≠ specSelectNearest l := by simpa using ha
    exact hpa.2

/-- C10: whenever findBestMV returns nearest = (0,0) it also returns
near = (0,0); equivalently a non-zero near forces a non-zero nearest with
near different from nearest. -/
theorem claim_C10_near_zero_default (ctx : MBCtx) :
    ((findBestMV ctx).1 = mvZero → (findBestMV ctx).2 = mvZero) ∧
    ((findBestMV ctx).2 ≠ mvZero →
      (findBestMV ctx).1 ≠ mvZero ∧ (findBestMV ctx).2 ≠ (findBestMV ctx).1) := by
  have hrepr : findBestMV ctx
      = (specSelectNearest ((findBestMVCandidates ctx).map fun cr =>
          if ctx.signBias cr.2 ≠ ctx.signBias ctx.refFrame then negMV cr.1 else cr.1),
        specSelectNear ((findBestMVCandidates ctx).map fun cr =>
          if ctx.signBias cr.2 ≠ ctx.signBias ctx.refFrame then negMV cr.1 else cr.1)) := by
    unfold findBestMV
    exact findBestMV_fold_spec _
  rw [hrepr]
  exact ⟨fun h => specSelectNearest_zero h, fun h => specSelectNear_props h⟩

/-- A context with no inter-coded neighbour, used as the C10 witness
instance. -/
def ctxNoNeighbor : MBCtx :=
  { mbw := 2, mbh := 2, mbx := 0, mby := 0,
    leftRefFrame := refFrameIntra, leftMV := mvZero,
    aboveRefFrame := refFrameIntra, aboveMV := mvZero,
    upRefFrame := refFrameIntra, upMV := mvZero,
    signBias := fun _ => false, refFrame := refFrameLast }

/-- C10 witness: at a context with no neighbours the nearest output is zero
and the theorem forces near to be zero too. -/
theorem claim_C10_witness : (findBestMV ctxNoNeighbor).2 = mvZero :=
  (claim_C10_near_zero_default ctxNoNeighbor).1 (by decide)

/-- Inter prediction mode NEARESTMV (mode-parsing file). -/
def mvModeNearest : Nat := 0

/-- Inter prediction mode NEARMV (mode-parsing file). -/
def mvModeNear : Nat := 1

/-- Inter prediction mode ZEROMV (mode-parsing file). -/
def mvModeZero : Nat := 2

/-- Inter prediction mode NEWMV (mode-parsing file). -/
def mvModeNew : Nat := 3

/-- Inter prediction mode SPLITMV (mode-parsing file). -/
def mvModeSplit : Nat := 4

/-- SPLITMV partition type 16x8 (mode-parsing file). -/
def splitMV16x8 : Nat := 0

/-- SPLITMV partition type 8x16 (mode-parsing file). -/
def splitMV8x16 : Nat := 1

/-- SPLITMV partition type 8x8 (mode-parsing file). -/
def splitMV8x8 : Nat := 2

/-- SPLITMV partition type 4x4 (mode-parsing file). -/
def splitMV4x4 : Nat := 3

/-- mbSplitProb from the mode-parsing file. -/
def mbSplitProb : List Nat := [110, 111, 150]

/-- subMvRefProb from the mode-parsing file, indexed by context. -/
def subMvRefProb : List (List Nat) :=
  [[147, 136, 18], [106, 145, 1], [179, 121, 1], [223, 1, 34], [208, 1, 1]]

/-- mbSplitCount from the mode-parsing file. -/
def mbSplitCount : List Nat := [2, 2, 4, 16]

/-- mbSplitFillCount from the mode-parsing file. -/
def mbSplitFillCount : List (List Nat) :=
  [[8, 8], [8, 8], [4, 4, 4, 4], [1, 1, 1, 1, 1, 1, 1, 1, 1, 1, 1, 1, 1, 1, 1, 1]]

/-- mbSplitFillOffset from the mode-parsing file: which 4x4 blocks belong to
each partition, in raster order.  The Go arrays are zero padded; entries
beyond the fill count are never read, so ragged lists with getD default 0
are an exact model. -/
def mbSplitFillOffset : List (List (List Nat)) :=
  [[[0, 1, 2, 3, 4, 5, 6, 7], [8, 9, 10, 11, 12, 13, 14, 15]],
   [[0, 1, 4, 5, 8, 9, 12, 13], [2, 3, 6, 7, 10, 11, 14, 15]],
   [[0, 1, 4, 5], [2, 3, 6, 7], [8, 9, 12, 13], [10, 11, 14, 15]],
   [[0], [1], [2], [3], [4], [5], [6], [7], [8], [9], [10], [11], [12], [13], [14], [15]]]

/-- mvModeProb from the mode-parsing file, indexed by
[nearest is zero][near is zero]. -/
def mvModeProb : List (List (List Nat)) :=
  [[[7, 1, 1, 143], [14, 18, 14, 107]],
   [[135, 145, 67, 106], [8, 75, 40, 155]]]

/-- btou: Bool to 0/1 index (used by the mvModeProb lookup). -/
def btou (b : Bool) : Nat := if b then 1 else 0

/-- getSubMVContext from the mode-parsing file. -/
def getSubMVContext (left above : motionVector) : Nat :=
  if left = above then 4
  else if left = mvZero ∧ above = mvZero then 3
  else if above = mvZero then 2
  else if left = mvZero then 1
  else 0

/-- The leftMVs array of parseSplitMV (mode-parsing file, lines 256-266):
all four rows get the left macroblock's single representative MV d.leftMV
when that neighbour is in frame and inter-coded, else zero. -/
def splitLeftMVs (ctx : MBCtx) : List motionVector :=
  if 0 < ctx.mbx ∧ ctx.leftRefFrame ≠ refFrameIntra
  then [ctx.leftMV, ctx.leftMV, ctx.leftMV, ctx.leftMV]
  else [mvZero, mvZero, mvZero, mvZero]

/-- The aboveMVs array of parseSplitMV (mode-parsing file, lines 267-273). -/
def splitAboveMVs (ctx : MBCtx) : List motionVector :=
  if 0 < ctx.mby ∧ ctx.aboveRefFrame ≠ refFrameIntra
  then [ctx.aboveMV, ctx.aboveMV, ctx.aboveMV, ctx.aboveMV]
  else [mvZero, mvZero, mvZero, mvZero]

/-- The left context MV for a partition (mode-parsing file, lines 282-292):
the leftMVs entry for the block row when the first block is in block
column 0, otherwise the sub-MV of the block immediately to the left. -/
def splitPartitionLeftMV (subMV leftMVs : List motionVector) (firstBlock : Nat) :
    motionVector :=
  if firstBlock % 4 = 0 then leftMVs.getD (firstBlock / 4) mvZero
  else subMV.getD (firstBlock - 1) mvZero

/-- The above context MV for a partition (mode-parsing file, lines
293-299). -/
def splitPartitionAboveMV (subMV aboveMVs : List motionVector) (firstBlock : Nat) :
    motionVector :=
  if firstBlock / 4 = 0 then aboveMVs.getD (firstBlock % 4) mvZero
  else subMV.getD (firstBlock - 4) mvZero

/-- The sub-MV mode tree of parseSplitMV (mode-parsing file, lines
305-320): LEFT, ABOVE, ZERO, or NEW (a fresh MV added to nearest). -/
def parseSubMVMode (prob : List Nat) (mvProb : Nat → Nat → Nat)
    (nearest leftMV aboveMV : motionVector) (s : BoolDec) : motionVector × BoolDec :=
  let r0 := readBit (prob.getD 0 0) s
  if r0.1 then
    let r1 := readBit (prob.getD 1 0) r0.2
    if r1.1 then
      let r2 := readBit (prob.getD 2 0) r1.2
      if r2.1 then
        let rmv := readMV mvProb r2.2
        (addMV nearest rmv.1, rmv.2)
      else (mvZero, r2.2)
    else (aboveMV, r1.2)
  else (leftMV, r0.2)

/-- The partition fill of parseSplitMV (mode-parsing file, lines 325-330):
every 4x4 block of the partition receives the same (clamped) MV. -/
def splitFill (splitType p : Nat) (v : motionVector) (l : List motionVector) :
    List motionVector :=
  (List.range ((mbSplitFillCount.getD splitType []).getD p 0)).foldl
    (fun l2 i => l2.set (((mbSplitFillOffset.getD splitType []).getD p []).getD i 0) v) l

/-- One iteration of the partition loop of parseSplitMV (mode-parsing file,
lines 277-331), acting on the (subMV array, decoder) state. -/
def parseSplitMVPartition (ctx : MBCtx) (mvProb : Nat → Nat → Nat)
    (nearest : motionVector) (splitType : Nat) (leftMVs aboveMVs : List motionVector)
    (st : List motionVector × BoolDec) (p : Nat) : List motionVector × BoolDec :=
  let firstBlock := ((mbSplitFillOffset.getD splitType []).getD p []).getD 0 0
  let leftMV := splitPartitionLeftMV st.1 leftMVs firstBlock
  let aboveMV := splitPartitionAboveMV st.1 aboveMVs firstBlock
  let prob := subMvRefProb.getD (getSubMVContext leftMV aboveMV) []
  let ms := parseSubMVMode prob mvProb nearest leftMV aboveMV st.2
  let clamped := clampMV (ctx.mbw : Int) (ctx.mbh : Int) ms.1 (ctx.mbx : Int) (ctx.mby : Int)
  (splitFill splitType p clamped st.1, ms.2)

/-- The partition-type tree of parseSplitMV (mode-parsing file, lines
237-246). -/
def parseSplitType (s : BoolDec) : Nat × BoolDec :=
  let r0 := readBit (mbSplitProb.getD 0 0) s
  if r0.1 then
    let r1 := readBit (mbSplitProb.getD 1 0) r0.2
    if r1.1 then
      let r2 := readBit (mbSplitProb.getD 2 0) r1.2
      if r2.1 then (splitMV8x16, r2.2) else (splitMV16x8, r2.2)
    else (splitMV8x8, r1.2)
  else (splitMV4x4, r0.2)

/-- The result of parseSplitMV: the 16 sub-block MVs, the representative
MB-level MV, and the decoder state. -/
structure SplitResult where
  subMV : List motionVector
  mbMV : motionVector
  dec : BoolDec
deriving DecidableEq, Repr

/-- parseSplitMV from the mode-parsing file: decode the partition type,
reset the sub-MVs to zero, run the partition loop, and set the
representative mbMV to sub-block 15. -/
def parseSplitMV (ctx : MBCtx) (mvProb : Nat → Nat → Nat) (nearest : motionVector)
    (s : BoolDec) : SplitResult :=
  let ts := parseSplitType s
  let subMV0 : List motionVector := List.replicate 16 mvZero
  let leftMVs := splitLeftMVs ctx
  let aboveMVs := splitAboveMVs ctx
  let res := (List.range (mbSplitCount.getD ts.1 0)).foldl
    (parseSplitMVPartition ctx mvProb nearest ts.1 leftMVs aboveMVs) (subMV0, ts.2)
  { subMV := res.1, mbMV := res.1.getD 15 mvZero, dec := res.2 }

/-- The result of parseMVMode: the decoded MV mode, the MB-level MV, the
sub-block MVs (unchanged from the input except under SPLITMV) and the
decoder state.  The MVModeCount diagnostic counters touched by the Go code
are determined by mvMode and are omitted here. -/
structure MVModeResult where
  mvMode : Nat
  mbMV : motionVector
  subMV : List motionVector
  dec : BoolDec
deriving DecidableEq, Repr

/-- parseMVMode from the mode-parsing file: find the nearest/near
candidates, pick the probability row by which of them are zero, and decode
the mode tree ZERO, NEAREST, NEAR, NEW, SPLIT with the associated MV
assignment (ZERO assigns (0,0) without clamping; NEAREST/NEAR/NEW clamp;
SPLIT defers to parseSplitMV). -/
def parseMVMode (ctx : MBCtx) (mvProb : Nat → Nat → Nat) (subMV0 : List motionVector)
    (s : BoolDec) : MVModeResult :=
  let nn := findBestMV ctx
  let prob := (mvModeProb.getD (btou (decide (nn.1 = mvZero))) []).getD
    (btou (decide (nn.2 = mvZero))) []
  let r0 := readBit (prob.getD 0 0) s
  if r0.1 then
    let r1 := readBit (prob.getD 1 0) r0.2
    if r1.1 then
      let r2 := readBit (prob.getD 2 0) r1.2
      if r2.1 then
        let r3 := readBit (prob.getD 3 0) r2.2
        if r3.1 then
          let res := parseSplitMV ctx mvProb nn.1 r3.2
          { mvMode := mvModeSplit, mbMV := res.mbMV, subMV := res.subMV, dec := res.dec }
        else
          let rmv := readMV mvProb r3.2
          { mvMode := mvModeNew,
            mbMV := clampMV (ctx.mbw : Int) (ctx.mbh : Int) (addMV nn.1 rmv.1)
              (ctx.mbx : Int) (ctx.mby : Int),
            subMV := subMV0, dec := rmv.2 }
      else
        { mvMode := mvModeNear,
          mbMV := clampMV (ctx.mbw : Int) (ctx.mbh : Int) nn.2 (ctx.mbx : Int) (ctx.mby : Int),
          subMV := subMV0, dec := r2.2 }
    else
      { mvMode := mvModeNearest,
        mbMV := clampMV (ctx.mbw : Int) (ctx.mbh : Int) nn.1 (ctx.mbx : Int) (ctx.mby : Int),
        subMV := subMV0, dec := r1.2 }
  else
    { mvMode := mvModeZero, mbMV := mvZero, subMV := subMV0, dec := r0.2 }

/-- The §4.5 clamp interval membership for a macroblock position, with the
bounds as the code computes them (equal, by modular congruence, to the §4.5
expressions evaluated in wide arithmetic and narrowed to int16). -/
def sectionMVBounds (mbw mbh mbx mby : Int) (mv : motionVector) : Prop :=
  clampMinX mbx ≤ mv.x ∧ mv.x ≤ clampMaxX mbw mbx ∧
  clampMinY mby ≤ mv.y ∧ mv.y ≤ clampMaxY mbh mby

instance (mbw mbh mbx mby : Int) (mv : motionVector) :
    Decidable (sectionMVBounds mbw mbh mbx mby mv) := by
  unfold sectionMVBounds; infer_instance

theorem clampMV_sectionMVBounds (mbw mbh mbx mby : Int) (mv : motionVector)
    (hx : clampMinX mbx ≤ clampMaxX mbw mbx) (hy : clampMinY mby ≤ clampMaxY mbh mby) :
    sectionMVBounds mbw mbh mbx mby (clampMV mbw mbh mv mbx mby) := by
  unfold clampMV sectionMVBounds
  dsimp only
  refine ⟨?_, ?_, ?_, ?_⟩ <;> split_ifs <;> omega

theorem clampBounds_window (mbw mbh mbx mby : Int)
    (h1 : 0 ≤ mbx) (h2 : mbx < mbw) (h3 : mbw ≤ 510)
    (h4 : 0 ≤ mby) (h5 : mby < mbh) (h6 : mbh ≤ 510) :
    clampMinX mbx ≤ 0 ∧ 0 ≤ clampMaxX mbw mbx ∧
    clampMinY mby ≤ 0 ∧ 0 ≤ clampMaxY mbh mby := by
  unfold clampMinX clampMaxX clampMinY clampMaxY wrap16
  omega

theorem foldl_inv {α σ : Type} (P : σ → Prop) (f : σ → α → σ) (l : List α) (s : σ)
    (h0 : P s) (hstep : ∀ t a, P t → P (f t a)) : P (l.foldl f s) := by
  induction l generalizing s with
  | nil => exact h0
  | cons a t ih => exact ih (f s a) (hstep s a h0)

theorem getD_set_preserve (l : List motionVector) (v : motionVector) (j : Nat)
    (P : motionVector → Prop) (hall : ∀ i, P (l.getD i mvZero)) (hv : P v) :
    ∀ i, P ((l.set j v).getD i mvZero) := by
  intro i
  by_cases hlen : l.length ≤ j
  · rw [List.set_eq_of_length_le hlen]
    exact hall i
  · push_neg at hlen
    by_cases hij : j = i
    · subst hij
      rw [List.getD_eq_getElem?_getD, List.getElem?_set_eq_of_lt v hlen]
      exact hv
    · rw [List.getD_eq_getElem?_getD, List.getElem?_set_ne hij,
        ← List.getD_eq_getElem?_getD]
      exact hall i

theorem splitFill_preserve (splitType p : Nat) (v : motionVector)
    (l : List motionVector) (P : motionVector → Prop)
    (hall : ∀ i, P (l.getD i mvZero)) (hv : P v) :
    ∀ i, P ((splitFill splitType p v l).getD i mvZero) := by
  unfold splitFill
  refine foldl_inv (fun l2 : List motionVector => ∀ i, P (l2.getD i mvZero)) _ _ _ hall ?_
  intro t a ht
  exact getD_set_preserve t v _ P ht hv

theorem parseSplitMV_bounds (ctx : MBCtx) (mvProb : Nat → Nat → Nat)
    (nearest : motionVector) (s : BoolDec)
    (hx : clampMinX (ctx.mbx : Int) ≤ clampMaxX (ctx.mbw : Int) (ctx.mbx : Int))
    (hy : clampMinY (ctx.mby : Int) ≤ clampMaxY (ctx.mbh : Int) (ctx.mby : Int))
    (hz : sectionMVBounds (ctx.mbw : Int) (ctx.mbh : Int) (ctx.mbx : Int) (ctx.mby : Int) mvZero) :
    ∀ i, sectionMVBounds (ctx.mbw : Int) (ctx.mbh : Int) (ctx.mbx : Int) (ctx.mby : Int)
      ((parseSplitMV ctx mvProb nearest s).subMV.getD i mvZero) := by
  unfold parseSplitMV
  have hmain : ∀ (st : List motionVector × BoolDec),
      (∀ i, sectionMVBounds (ctx.mbw : Int) (ctx.mbh : Int) (ctx.mbx : Int) (ctx.mby : Int)
        (st.1.getD i mvZero)) →
      ∀ n ty lm am,
        ∀ i, sectionMVBounds (ctx.mbw : Int) (ctx.mbh : Int) (ctx.mbx : Int) (ctx.mby : Int)
          (((List.range n).foldl (parseSplitMVPartition ctx mvProb nearest ty lm am) st).1.getD
            i mvZero) := by
    intro st hst n ty lm am
    refine foldl_inv
      (fun t : List motionVector × BoolDec =>
        ∀ i, sectionMVBounds (ctx.mbw : Int) (ctx.mbh : Int) (ctx.mbx : Int) (ctx.mby : Int)
          (t.1.getD i mvZero)) _ _ _ hst ?_
    intro t a ht
    unfold parseSplitMVPartition
    exact splitFill_preserve ty a _ t.1 _ ht (clampMV_sectionMVBounds _ _ _ _ _ hx hy)
  refine hmain (List.replicate 16 mvZero, (parseSplitType s).2) ?_ _ _ _ _
  intro i
  have hrep : (List.replicate 16 mvZero).getD i mvZero = mvZero := by
    rw [List.getD_eq_getElem?_getD, List.getElem?_replicate]
    split_ifs <;> rfl
  rw [hrep]; exact hz

/-- The macroblock context of the C4 counterexample: the first macroblock of
a 512-macroblock-wide frame (frame width 8192 pixels, VP8 permits up to
16383), with no inter-coded neighbour. -/
def ctxWide : MBCtx :=
  { mbw := 512, mbh := 1, mbx := 0, mby := 0,
    leftRefFrame := refFrameIntra, leftMV := mvZero,
    aboveRefFrame := refFrameIntra, aboveMV := mvZero,
    upRefFrame := refFrameIntra, upMV := mvZero,
    signBias := fun _ => false, refFrame := refFrameLast }

/-- C4 counterexample: at (mbx, mby) = (0, 0) of a 512x1-macroblock frame,
a ZERO-mode macroblock (mode bits: one 0 bit) gets mbMV = (0,0), but the
§4.5 upper x bound for that position, computed as the code computes it
(narrowed to int16), is -32704 < 0, so the claimed invariant
minX ≤ x ≤ maxX fails on the decoded MV. -/
theorem claim_C4_counterexample :
    (512 : Int) ≤ vp8MaxMBDim ∧
      (parseMVMode ctxWide (fun _ _ => 128) (List.replicate 16 mvZero)
        { bits := [false], trace := [] }).mvMode = mvModeZero ∧
      (parseMVMode ctxWide (fun _ _ => 128) (List.replicate 16 mvZero)
        { bits := [false], trace := [] }).mbMV = mvZero ∧
      clampMaxX 512 0 = -32704 ∧
      ¬ sectionMVBounds 512 1 0 0 mvZero := by
  refine ⟨by decide, by decide, by decide, by decide, by decide⟩

/-- C4 amended: for frames with at most 510 macroblocks per dimension (so
that none of the int16 bound arithmetic wraps), every MV decoded by
parseMVMode - the final mbMV in every mode, including ZERO which assigns
(0,0) without calling clampMV, and in SPLITMV mode every entry of
subMV[0..15] as well as the representative mbMV = subMV[15] - satisfies
minX ≤ x ≤ maxX and minY ≤ y ≤ maxY with the §4.5 bounds for the
position.  For larger permitted frames the wrapped bounds can exclude even
the zero MV (see the counterexample). -/
theorem claim_C4_amended (ctx : MBCtx) (mvProb : Nat → Nat → Nat)
    (subMV0 : List motionVector) (s : BoolDec)
    (h2 : ctx.mbx < ctx.mbw) (h3 : ctx.mbw ≤ 510)
    (h5 : ctx.mby < ctx.mbh) (h6 : ctx.mbh ≤ 510) :
    sectionMVBounds (ctx.mbw : Int) (ctx.mbh : Int) (ctx.mbx : Int) (ctx.mby : Int)
      (parseMVMode ctx mvProb subMV0 s).mbMV ∧
    ((parseMVMode ctx mvProb subMV0 s).mvMode = mvModeSplit →
      ∀ i, sectionMVBounds (ctx.mbw : Int) (ctx.mbh : Int) (ctx.mbx : Int) (ctx.mby : Int)
        ((parseMVMode ctx mvProb subMV0 s).subMV.getD i mvZero)) := by
  have hwin := clampBounds_window (ctx.mbw : Int) (ctx.mbh : Int) (ctx.mbx : Int)
    (ctx.mby : Int) (Int.natCast_nonneg _) (by exact_mod_cast h2) (by exact_mod_cast h3)
    (Int.natCast_nonneg _) (by exact_mod_cast h5) (by exact_mod_cast h6)
  have hx : clampMinX (ctx.mbx : Int) ≤ clampMaxX (ctx.mbw : Int) (ctx.mbx : Int) :=
    le_trans hwin.1 hwin.2.1
  have hy : clampMinY (ctx.mby : Int) ≤ clampMaxY (ctx.mbh : Int) (ctx.mby : Int) :=
    le_trans hwin.2.2.1 hwin.2.2.2
  have hz : sectionMVBounds (ctx.mbw : Int) (ctx.mbh : Int) (ctx.mbx : Int) (ctx.mby : Int)
      mvZero := ⟨hwin.1, hwin.2.1, hwin.2.2.1, hwin.2.2.2⟩
  have hsplit := parseSplitMV_bounds ctx mvProb (findBestMV ctx).1
  unfold parseMVMode
  dsimp only
  split_ifs with b0 b1 b2 b3
  · -- SPLITMV
    refine ⟨?_, fun _ i => hsplit _ hx hy hz i⟩
    exact hsplit _ hx hy hz 15
  · -- NEWMV
    exact ⟨clampMV_sectionMVBounds _ _ _ _ _ hx hy,
      fun h => False.elim (by simp [mvModeNew, mvModeSplit] at h)⟩
  · -- NEARMV
    exact ⟨clampMV_sectionMVBounds _ _ _ _ _ hx hy,
      fun h => False.elim (by simp [mvModeNear, mvModeSplit] at h)⟩
  · -- NEARESTMV
    exact ⟨clampMV_sectionMVBounds _ _ _ _ _ hx hy,
      fun h => False.elim (by simp [mvModeNearest, mvModeSplit] at h)⟩
  · -- ZEROMV
    exact ⟨hz, fun h => False.elim (by simp [mvModeZero, mvModeSplit] at h)⟩

/-- A 1x1-macroblock context used as the C4 witness instance. -/
def ctxTiny : MBCtx :=
  { mbw := 1, mbh := 1, mbx := 0, mby := 0,
    leftRefFrame := refFrameIntra, leftMV := mvZero,
    aboveRefFrame := refFrameIntra, aboveMV := mvZero,
    upRefFrame := refFrameIntra, upMV := mvZero,
    signBias := fun _ => false, refFrame := refFrameLast }

/-- C4 witness: the amended theorem applied at the 1x1 frame with a
ZERO-mode bit stream. -/
theorem claim_C4_witness :
    ctxTiny.mbx < ctxTiny.mbw ∧ ctxTiny.mbw ≤ 510 ∧
      sectionMVBounds (ctxTiny.mbw : Int) (ctxTiny.mbh : Int) (ctxTiny.mbx : Int)
        (ctxTiny.mby : Int)
        (parseMVMode ctxTiny (fun _ _ => 128) (List.replicate 16 mvZero)
          { bits := [false], trace := [] }).mbMV :=
  ⟨by decide, by decide,
    (claim_C4_amended ctxTiny (fun _ _ => 128) (List.replicate 16 mvZero)
      { bits := [false], trace := [] } (by decide) (by decide) (by decide) (by decide)).1⟩

theorem splitLeftMVs_getD (ctx : MBCtx) (k : Nat) (hk : k < 4) :
    (splitLeftMVs ctx).getD k mvZero
      = if 0 < ctx.mbx ∧ ctx.leftRefFrame ≠ refFrameIntra then ctx.leftMV else mvZero := by
  unfold splitLeftMVs
  split_ifs <;> interval_cases k <;> rfl

theorem splitAboveMVs_getD (ctx : MBCtx) (k : Nat) (hk : k < 4) :
    (splitAboveMVs ctx).getD k mvZero
      = if 0 < ctx.mby ∧ ctx.aboveRefFrame ≠ refFrameIntra then ctx.aboveMV else mvZero := by
  unfold splitAboveMVs
  split_ifs <;> interval_cases k <;> rfl

/-- The left macroblock of the C2 counterexample: position (0,0) of a
2x1-macroblock frame, no neighbours. -/
def ctxL : MBCtx :=
  { mbw := 2, mbh := 1, mbx := 0, mby := 0,
    leftRefFrame := refFrameIntra, leftMV := mvZero,
    aboveRefFrame := refFrameIntra, aboveMV := mvZero,
    upRefFrame := refFrameIntra, upMV := mvZero,
    signBias := fun _ => false, refFrame := refFrameLast }

/-- The bit stream of the C2 counterexample's left macroblock: 4x4 split,
blocks 0-2 ZERO, block 3 NEW with delta (x,y) = (+4,0) quarter-pixels,
blocks 4-15 ZERO. -/
def streamL : List Bool :=
  [false,
   true, true, false, true, true, false, true, true, false,
   true, true, true,
   false, false, false, false,
   false, false, false, true, false,
   true, true, false, true, true, false, true, true, false, true, true, false,
   true, true, false, true, true, false, true, true, false, true, true, false,
   true, true, false, true, true, false, true, true, false, true, true, false]

/-- The left macroblock's SPLITMV decode in the C2 counterexample. -/
def splitL : SplitResult :=
  parseSplitMV ctxL (fun _ _ => 128) mvZero { bits := streamL, trace := [] }

/-- The current macroblock of the C2 counterexample: position (1,0), whose
left neighbour is the macroblock decoded by splitL; per the neighbour
update (spec §4.3, outside the sources) its leftMV is that macroblock's
representative mbMV. -/
def ctxR : MBCtx :=
  { mbw := 2, mbh := 1, mbx := 1, mby := 0,
    leftRefFrame := refFrameLast, leftMV := splitL.mbMV,
    aboveRefFrame := refFrameIntra, aboveMV := mvZero,
    upRefFrame := refFrameIntra, upMV := mvZero,
    signBias := fun _ => false, refFrame := refFrameLast }

/-- C2 counterexample: the left macroblock decodes SPLITMV with right-edge
sub-MV of row 0 equal to (4,0) (its sub-block 3) but representative
mbMV = subMV[15] = (0,0).  The next macroblock's parseSplitMV left context
for a left-edge partition in block row 0 is the single leftMV = (0,0) - not
the left macroblock's sub-block 3 as the claim requires. -/
theorem claim_C2_counterexample :
    splitL.subMV.getD 3 mvZero = { x := 4, y := 0 } ∧
      splitL.mbMV = mvZero ∧
      splitPartitionLeftMV (List.replicate 16 mvZero) (splitLeftMVs ctxR) 0 = mvZero ∧
      splitPartitionLeftMV (List.replicate 16 mvZero) (splitLeftMVs ctxR) 0
        ≠ splitL.subMV.getD 3 mvZero := by
  refine ⟨by decide, by decide, by decide, by decide⟩

/-- C2 amended: for a partition whose first block is in block column 0, the
left context MV is the left macroblock's single representative MV
(d.leftMV, which after a SPLITMV neighbour is that macroblock's sub-block
15) for every block row, or zero if the left macroblock is INTRA or out of
frame; symmetrically the above context uses the above macroblock's single
representative MV for every block column.  parseSplitMV also sets the
representative mbMV to sub-block 15. -/
theorem claim_C2_amended (ctx : MBCtx) (subMV : List motionVector) (firstBlock : Nat)
    (mvProb : Nat → Nat → Nat) (nearest : motionVector) (s : BoolDec)
    (hfb : firstBlock < 16) :
    (firstBlock % 4 = 0 →
      splitPartitionLeftMV subMV (splitLeftMVs ctx) firstBlock
        = if 0 < ctx.mbx ∧ ctx.leftRefFrame ≠ refFrameIntra then ctx.leftMV else mvZero) ∧
    (firstBlock / 4 = 0 →
      splitPartitionAboveMV subMV (splitAboveMVs ctx) firstBlock
        = if 0 < ctx.mby ∧ ctx.aboveRefFrame ≠ refFrameIntra then ctx.aboveMV else mvZero) ∧
    (parseSplitMV ctx mvProb nearest s).mbMV
      = (parseSplitMV ctx mvProb nearest s).subMV.getD 15 mvZero := by
  refine ⟨?_, ?_, rfl⟩
  · intro hcol
    unfold splitPartitionLeftMV
    rw [if_pos hcol]
    exact splitLeftMVs_getD ctx _ (by omega)
  · intro hrow
    unfold splitPartitionAboveMV
    rw [if_pos hrow]
    exact splitAboveMVs_getD ctx _ (by omega)

/-- C2 witness: the amended theorem applied at the counterexample's second
macroblock and the left-edge partition with first block 0. -/
theorem claim_C2_witness :
    (0 : Nat) < 16 ∧ (0 : Nat) % 4 = 0 ∧
      splitPartitionLeftMV (List.replicate 16 mvZero) (splitLeftMVs ctxR) 0
        = if 0 < ctxR.mbx ∧ ctxR.leftRefFrame ≠ refFrameIntra then ctxR.leftMV else mvZero :=
  ⟨by decide, by decide,
    (claim_C2_amended ctxR (List.replicate 16 mvZero) 0 (fun _ _ => 128) mvZero
      { bits := [], trace := [] } (by decide)).1 (by decide)⟩

/-- A reference frame (Go image.YCbCr as the decoder uses it: Rect.Min is
(0,0), so Rect.Max.X/Max.Y are width and height).  Byte planes are
functions from flat index to byte; lenY/lenCb/lenCr record the plane
lengths for the in-bounds statements. -/
structure YCbCrImage where
  MaxX : Int
  MaxY : Int
  YStride : Int
  CStride : Int
  lenY : Int
  lenCb : Int
  lenCr : Int
  Y : Int → Fin 256
  Cb : Int → Fin 256
  Cr : Int → Fin 256

/-- A byte read as a Go int. -/
def px (v : Fin 256) : Int := (v : Nat)

/-- The `if v < 0 ... else if v >= hi ...` edge clamp used by the luma and
copy paths of interpred.go. -/
def clampCoord (hi v : Int) : Int := if v < 0 then 0 else if v ≥ hi then hi - 1 else v

/-- The two-sequential-ifs edge clamp used by the chroma bilinear paths of
interpred.go (`if v < 0 {v = 0}; if v >= hi {v = hi - 1}`). -/
def clampCoordSeq (hi v : Int) : Int :=
  let v1 := if v < 0 then 0 else v
  if v1 ≥ hi then hi - 1 else v1

/-- The flat index of every luma read in interpred.go: both source
coordinates clamped into the reference rectangle, then srcY*YStride+srcX. -/
def lumaReadIdx (ref : YCbCrImage) (sy sx : Int) : Int :=
  clampCoord ref.MaxY sy * ref.YStride + clampCoord ref.MaxX sx

/-- The flat index of the chroma bilinear reads (interPredictChromaPlane
and interPredict4x4Chroma): x clamped by the stride, y by
planeHeight = len/stride. -/
def chromaPlaneReadIdx (stride len sy sx : Int) : Int :=
  clampCoordSeq (len / stride) sy * stride + clampCoordSeq stride sx

/-- The flat index of the chroma reads of copyBlockFromRefWithOffset:
y clamped by Rect.Max.Y/2, x by Rect.Max.X/2, indexed with CStride. -/
def copyChromaReadIdx (ref : YCbCrImage) (sy sx : Int) : Int :=
  clampCoord (ref.MaxY / 2) sy * ref.CStride + clampCoord (ref.MaxX / 2) sx

/-- subpelFilter from interpred.go (RFC 6386 §14.4). -/
def subpelFilter : List (List Int) :=
  [[0, 0, 128, 0, 0, 0],
   [0, -6, 123, 12, -1, 0],
   [2, -11, 108, 36, -8, 1],
   [0, -9, 93, 50, -6, 0],
   [3, -16, 77, 77, -16, 3],
   [0, -6, 50, 93, -9, 0],
   [1, -8, 36, 108, -11, 2],
   [0, -1, 12, 123, -6, 0]]

/-- bilinearFilter from interpred.go. -/
def bilinearFilter : List (List Int) :=
  [[128, 0], [112, 16], [96, 32], [80, 48], [64, 64], [48, 80], [32, 96], [16, 112]]

/-- clip255 from interpred.go. -/
def clip255 (v : Int) : Fin 256 :=
  if h1 : v < 0 then ⟨0, by omega⟩
  else if h2 : v > 255 then ⟨255, by omega⟩
  else ⟨v.toNat, by omega⟩

/-- The horizontal-filter intermediate of interPredictLuma and
interPredict4x4Luma (interpred.go lines 95-120 and 435-458), at source row
offset r and output column col.  The Go intermediate is int16: the shift
and the 6-tap accumulation wrap at 16 bits. -/
def lumaHorizTemp (ref : YCbCrImage) (baseX baseY filterX r col : Int) : Int :=
  if filterX = 0 then
    wrap16 (px (ref.Y (lumaReadIdx ref (baseY + r) (baseX + col))) * 128)
  else
    (List.range 6).foldl
      (fun acc t =>
        wrap16 (acc + wrap16 ((subpelFilter.getD filterX.toNat []).getD t 0 *
          px (ref.Y (lumaReadIdx ref (baseY + r) (baseX + col + (t : Int) - 2)))))) 0

/-- One output pixel of interPredictLuma (interpred.go lines 52-144): MV
decomposition with the floor/fixup convention, horizontal then vertical
6-tap pass, rounding and clipping. -/
def interPredictLumaPixel (ref : YCbCrImage) (mbx mby : Int) (mv : motionVector)
    (row col : Int) : Fin 256 :=
  let mvx := mv.x
  let mvy := mv.y
  let fracX0 := mvx % 4
  let fracY0 := mvy % 4
  let baseX := if fracX0 < 0 then mbx * 16 + mvx / 4 - 1 else mbx * 16 + mvx / 4
  let baseY := if fracY0 < 0 then mby * 16 + mvy / 4 - 1 else mby * 16 + mvy / 4
  let fracX := if fracX0 < 0 then fracX0 + 4 else fracX0
  let fracY := if fracY0 < 0 then fracY0 + 4 else fracY0
  let filterX := fracX * 2
  let filterY := fracY * 2
  if filterY = 0 then
    clip255 ((wrap16 (lumaHorizTemp ref baseX baseY filterX row col + 64)) / 128)
  else
    let sum := (List.range 6).foldl
      (fun acc t => acc + (subpelFilter.getD filterY.toNat []).getD t 0 *
        lumaHorizTemp ref baseX baseY filterX (row + (t : Int) - 2) col) 0
    clip255 ((sum + 8192) / 16384)

/-- One luma pixel of copyBlockFromRefWithOffset (interpred.go lines
247-263). -/
def copyLumaPixel (ref : YCbCrImage) (mbx mby offsetX offsetY row col : Int) : Fin 256 :=
  ref.Y (lumaReadIdx ref (mby * 16 + row + offsetY) (mbx * 16 + col + offsetX))

/-- One Cb pixel of copyBlockFromRefWithOffset (interpred.go lines
265-287); the chroma offset is the Go truncating division by 2. -/
def copyChromaCbPixel (ref : YCbCrImage) (mbx mby offsetX offsetY row col : Int) :
    Fin 256 :=
  ref.Cb (copyChromaReadIdx ref (mby * 8 + row + Int.tdiv offsetY 2)
    (mbx * 8 + col + Int.tdiv offsetX 2))

/-- One Cr pixel of copyBlockFromRefWithOffset. -/
def copyChromaCrPixel (ref : YCbCrImage) (mbx mby offsetX offsetY row col : Int) :
    Fin 256 :=
  ref.Cr (copyChromaReadIdx ref (mby * 8 + row + Int.tdiv offsetY 2)
    (mbx * 8 + col + Int.tdiv offsetX 2))

/-- One output pixel of interPredictChromaPlane (interpred.go lines
177-237): 2x2 fetch with clamped coordinates, horizontal then vertical
bilinear pass with +64 rounding. -/
def interPredictChromaPlanePixel (plane : Int → Fin 256) (len stride : Int)
    (baseX baseY fracX fracY row col : Int) : Fin 256 :=
  let fltX := bilinearFilter.getD fracX.toNat []
  let fltY := bilinearFilter.getD fracY.toNat []
  let p00 := px (plane (chromaPlaneReadIdx stride len (baseY + row) (baseX + col)))
  let p01 := px (plane (chromaPlaneReadIdx stride len (baseY + row) (baseX + col + 1)))
  let p10 := px (plane (chromaPlaneReadIdx stride len (baseY + row + 1) (baseX + col)))
  let p11 := px (plane (chromaPlaneReadIdx stride len (baseY + row + 1) (baseX + col + 1)))
  let h0 := (p00 * fltX.getD 0 0 + p01 * fltX.getD 1 0 + 64) / 128
  let h1 := (p10 * fltX.getD 0 0 + p11 * fltX.getD 1 0 + 64) / 128
  clip255 ((h0 * fltY.getD 0 0 + h1 * fltY.getD 1 0 + 64) / 128)

/-- The chroma MV decomposition of interPredictChroma (interpred.go lines
151-167): eighth-pixel split with the floor/fixup convention.  Returns
(baseX, baseY, fracX, fracY). -/
def chromaDecompose (mbx mby : Int) (mv : motionVector) : Int × Int × Int × Int :=
  let mvx := mv.x
  let mvy := mv.y
  let fracX0 := mvx % 8
  let fracY0 := mvy % 8
  let baseX := if fracX0 < 0 then mbx * 8 + mvx / 8 - 1 else mbx * 8 + mvx / 8
  let baseY := if fracY0 < 0 then mby * 8 + mvy / 8 - 1 else mby * 8 + mvy / 8
  let fracX := if fracX0 < 0 then fracX0 + 8 else fracX0
  let fracY := if fracY0 < 0 then fracY0 + 8 else fracY0
  (baseX, baseY, fracX, fracY)

/-- One output pixel of interPredict4x4Luma (interpred.go lines 376-478):
at integer positions a direct byte copy, otherwise the same separable
filter as the 16x16 path on a 4x4 block. -/
def interPredict4x4LumaPixel (ref : YCbCrImage) (baseX4 baseY4 : Int)
    (mv : motionVector) (row col : Int) : Fin 256 :=
  let mvx := mv.x
  let mvy := mv.y
  let fracX0 := mvx % 4
  let fracY0 := mvy % 4
  let srcBaseX := if fracX0 < 0 then baseX4 + mvx / 4 - 1 else baseX4 + mvx / 4
  let srcBaseY := if fracY0 < 0 then baseY4 + mvy / 4 - 1 else baseY4 + mvy / 4
  let fracX := if fracX0 < 0 then fracX0 + 4 else fracX0
  let fracY := if fracY0 < 0 then fracY0 + 4 else fracY0
  let filterX := fracX * 2
  let filterY := fracY * 2
  if filterX = 0 ∧ filterY = 0 then
    ref.Y (lumaReadIdx ref (srcBaseY + row) (srcBaseX + col))
  else if filterY = 0 then
    clip255 ((wrap16 (lumaHorizTemp ref srcBaseX srcBaseY filterX row col + 64)) / 128)
  else
    let sum := (List.range 6).foldl
      (fun acc t => acc + (subpelFilter.getD filterY.toNat []).getD t 0 *
        lumaHorizTemp ref srcBaseX srcBaseY filterX (row + (t : Int) - 2) col) 0
    clip255 ((sum + 8192) / 16384)

/-- One Cb pixel of interPredict4x4Chroma (interpred.go lines 481-565);
note the source computes planeHeight from the Cb plane for both planes. -/
def interPredict4x4ChromaCbPixel (ref : YCbCrImage) (baseX4 baseY4 : Int)
    (mv : motionVector) (row col : Int) : Fin 256 :=
  let d := chromaDecompose 0 0 mv
  interPredictChromaPlanePixel ref.Cb ref.lenCb ref.CStride
    (baseX4 + d.1) (baseY4 + d.2.1) d.2.2.1 d.2.2.2 row col

/-- One Cr pixel of interPredict4x4Chroma; the y clamp uses the Cb plane's
height, as in the source. -/
def interPredict4x4ChromaCrPixel (ref : YCbCrImage) (baseX4 baseY4 : Int)
    (mv : motionVector) (row col : Int) : Fin 256 :=
  let d := chromaDecompose 0 0 mv
  interPredictChromaPlanePixel ref.Cr ref.lenCb ref.CStride
    (baseX4 + d.1) (baseY4 + d.2.1) d.2.2.1 d.2.2.2 row col

/-- The averaged chroma MV of interPredictSplit (interpred.go lines
351-364): sum the four luma sub-block MVs of the quadrant and round with
(sum + 2) >> 2, narrowed to int16. -/
def chromaAvgMV (subMV : List motionVector) (chromaRow chromaCol : Nat) : motionVector :=
  let m00 := subMV.getD ((chromaRow * 2 + 0) * 4 + chromaCol * 2 + 0) mvZero
  let m01 := subMV.getD ((chromaRow * 2 + 0) * 4 + chromaCol * 2 + 1) mvZero
  let m10 := subMV.getD ((chromaRow * 2 + 1) * 4 + chromaCol * 2 + 0) mvZero
  let m11 := subMV.getD ((chromaRow * 2 + 1) * 4 + chromaCol * 2 + 1) mvZero
  let sumX := m00.x + m01.x + m10.x + m11.x
  let sumY := m00.y + m01.y + m10.y + m11.y
  { x := wrap16 ((sumX + 2) / 4), y := wrap16 ((sumY + 2) / 4) }

/-- A rectangular write into the reconstruction workspace: the embedding of
the Go double loops that store a block at a workspace offset. -/
def writeRegion (ybr : Int → Int → Fin 256) (r0 c0 h w : Int)
    (f : Int → Int → Fin 256) : Int → Int → Fin 256 :=
  fun r c =>
    if r0 ≤ r ∧ r < r0 + h ∧ c0 ≤ c ∧ c < c0 + w then f (r - r0) (c - c0) else ybr r c

/-- The missing-reference fill of performInterPrediction (interpred.go
lines 292-307): luma rows 1-16 cols 8-23 and chroma rows 18-25 cols 8-15
and 24-31 are set to 128. -/
def fillGray (ybr : Int → Int → Fin 256) : Int → Int → Fin 256 :=
  writeRegion (writeRegion (writeRegion ybr 1 8 16 16 (fun _ _ => ⟨128, by omega⟩))
    18 8 8 8 (fun _ _ => ⟨128, by omega⟩)) 18 24 8 8 (fun _ _ => ⟨128, by omega⟩)

/-- The workspace effect of copyBlockFromRefWithOffset. -/
def copyBlockYbr (ref : YCbCrImage) (mbx mby offsetX offsetY : Int)
    (ybr : Int → Int → Fin 256) : Int → Int → Fin 256 :=
  writeRegion (writeRegion (writeRegion ybr 1 8 16 16
    (copyLumaPixel ref mbx mby offsetX offsetY))
    18 8 8 8 (copyChromaCbPixel ref mbx mby offsetX offsetY))
    18 24 8 8 (copyChromaCrPixel ref mbx mby offsetX offsetY)

/-- The workspace effect of interPredictLuma. -/
def interPredictLumaYbr (ref : YCbCrImage) (mbx mby : Int) (mv : motionVector)
    (ybr : Int → Int → Fin 256) : Int → Int → Fin 256 :=
  writeRegion ybr 1 8 16 16 (interPredictLumaPixel ref mbx mby mv)

/-- The workspace effect of interPredictChroma (both planes). -/
def interPredictChromaYbr (ref : YCbCrImage) (mbx mby : Int) (mv : motionVector)
    (ybr : Int → Int → Fin 256) : Int → Int → Fin 256 :=
  let d := chromaDecompose mbx mby mv
  writeRegion (writeRegion ybr 18 8 8 8
    (interPredictChromaPlanePixel ref.Cb ref.lenCb ref.CStride d.1 d.2.1 d.2.2.1 d.2.2.2))
    18 24 8 8
    (interPredictChromaPlanePixel ref.Cr ref.lenCr ref.CStride d.1 d.2.1 d.2.2.1 d.2.2.2)

/-- The workspace effect of interPredictSplit (interpred.go lines 333-373):
16 per-block 4x4 luma predictions, then 4 chroma quadrants with the
averaged MV. -/
def interPredictSplitYbr (ref : YCbCrImage) (mbx mby : Int)
    (subMV : List motionVector) (ybr : Int → Int → Fin 256) : Int → Int → Fin 256 :=
  let y1 := (List.range 16).foldl
    (fun y i =>
      let blockRow := (i / 4 : Nat)
      let blockCol := (i % 4 : Nat)
      writeRegion y (1 + (blockRow : Int) * 4) (8 + (blockCol : Int) * 4) 4 4
        (interPredict4x4LumaPixel ref (mbx * 16 + (blockCol : Int) * 4)
          (mby * 16 + (blockRow : Int) * 4) (subMV.getD i mvZero))) ybr
  (List.range 2).foldl
    (fun y cr =>
      (List.range 2).foldl
        (fun y2 cc =>
          let avg := chromaAvgMV subMV cr cc
          writeRegion (writeRegion y2 (18 + (cr : Int) * 4) (8 + (cc : Int) * 4) 4 4
            (interPredict4x4ChromaCbPixel ref (mbx * 8 + (cc : Int) * 4)
              (mby * 8 + (cr : Int) * 4) avg))
            (18 + (cr : Int) * 4) (24 + (cc : Int) * 4) 4 4
            (interPredict4x4ChromaCrPixel ref (mbx * 8 + (cc : Int) * 4)
              (mby * 8 + (cr : Int) * 4) avg)) y) y1

/-- The decoder state visible to performInterPrediction: the workspace, the
boolean decoder, the reference store, the current macroblock's mode data,
and the diagnostic counters the sources carry. -/
structure DecState where
  ybr : Int → Int → Fin 256
  dec : BoolDec
  refs : Nat → Option YCbCrImage
  refFrame : Nat
  mvMode : Nat
  mbMV : motionVector
  subMV : List motionVector
  IntraMBCount : Nat
  InterMBCount : Nat
  MVModeCount : Nat → Nat

/-- performInterPrediction from interpred.go: when the reference lookup
fails, fill the workspace regions with 128 and return; otherwise dispatch
to the split / zero-copy / integer-offset-copy / subpel paths. -/
def performInterPrediction (mbx mby : Int) (d : DecState) : DecState :=
  match d.refs d.refFrame with
  | none => { d with ybr := fillGray d.ybr }
  | some ref =>
    if d.mvMode = mvModeSplit then
      { d with ybr := interPredictSplitYbr ref mbx mby d.subMV d.ybr }
    else if d.mbMV.x = 0 ∧ d.mbMV.y = 0 then
      { d with ybr := copyBlockYbr ref mbx mby 0 0 d.ybr }
    else if d.mbMV.x % 4 = 0 ∧ d.mbMV.y % 4 = 0 then
      { d with ybr := copyBlockYbr ref mbx mby (d.mbMV.x / 4) (d.mbMV.y / 4) d.ybr }
    else
      { d with
        ybr := interPredictChromaYbr ref mbx mby d.mbMV
          (interPredictLumaYbr ref mbx mby d.mbMV d.ybr) }

/-- The claim's "records a diagnostic counter": some counter carried by the
decoder state changed across the call. -/
def recordsDiagnostic (d d2 : DecState) : Prop :=
  d2.IntraMBCount ≠ d.IntraMBCount ∨ d2.InterMBCount ≠ d.InterMBCount ∨
  d2.MVModeCount 0 ≠ d.MVModeCount 0 ∨ d2.MVModeCount 1 ≠ d.MVModeCount 1 ∨
  d2.MVModeCount 2 ≠ d.MVModeCount 2 ∨ d2.MVModeCount 3 ≠ d.MVModeCount 3 ∨
  d2.MVModeCount 4 ≠ d.MVModeCount 4

instance (d d2 : DecState) : Decidable (recordsDiagnostic d d2) := by
  unfold recordsDiagnostic; infer_instance

/-- A decoder state whose reference store is empty, for the C6 statements. -/
def decMissing : DecState :=
  { ybr := fun _ _ => ⟨0, by omega⟩,
    dec := { bits := [true, false, true], trace := [] },
    refs := fun _ => none, refFrame := refFrameLast, mvMode := mvModeZero,
    mbMV := mvZero, subMV := List.replicate 16 mvZero,
    IntraMBCount := 3, InterMBCount := 7, MVModeCount := fun m => m + 11 }

/-- C6 counterexample: on a state with no registered reference,
performInterPrediction fills the prediction regions with 128 and returns
with the bit stream untouched - but no diagnostic counter changes, against
the claim's "records a diagnostic counter for the missing reference". -/
theorem claim_C6_counterexample :
    ¬ recordsDiagnostic decMissing (performInterPrediction 0 0 decMissing) ∧
      (performInterPrediction 0 0 decMissing).dec = decMissing.dec ∧
      (performInterPrediction 0 0 decMissing).ybr 1 8 = ⟨128, by omega⟩ ∧
      (performInterPrediction 0 0 decMissing).ybr 16 23 = ⟨128, by omega⟩ ∧
      (performInterPrediction 0 0 decMissing).ybr 18 8 = ⟨128, by omega⟩ ∧
      (performInterPrediction 0 0 decMissing).ybr 25 31 = ⟨128, by omega⟩ ∧
      (performInterPrediction 0 0 decMissing).ybr 0 0 = ⟨0, by omega⟩ := by
  refine ⟨by decide, rfl, rfl, rfl, rfl, rfl, rfl⟩

/-- C6 amended: when the reference lookup returns none,
performInterPrediction fills the 16x16 luma and both 8x8 chroma regions of
the workspace with the midpoint 128 and returns without consuming
bitstream input and without touching the rest of the state; no diagnostic
counter is recorded. -/
theorem claim_C6_amended (d : DecState) (mbx mby row col : Int)
    (h : d.refs d.refFrame = none) :
    (0 ≤ row → row < 16 → 0 ≤ col → col < 16 →
      (performInterPrediction mbx mby d).ybr (1 + row) (8 + col) = ⟨128, by omega⟩) ∧
    (0 ≤ row → row < 8 → 0 ≤ col → col < 8 →
      (performInterPrediction mbx mby d).ybr (18 + row) (8 + col) = ⟨128, by omega⟩ ∧
      (performInterPrediction mbx mby d).ybr (18 + row) (24 + col) = ⟨128, by omega⟩) ∧
    (performInterPrediction mbx mby d).dec = d.dec ∧
    (performInterPrediction mbx mby d).IntraMBCount = d.IntraMBCount ∧
    (performInterPrediction mbx mby d).InterMBCount = d.InterMBCount ∧
    (performInterPrediction mbx mby d).MVModeCount = d.MVModeCount ∧
    ¬ recordsDiagnostic d (performInterPrediction mbx mby d) := by
  have hred : performInterPrediction mbx mby d = { d with ybr := fillGray d.ybr } := by
    unfold performInterPrediction
    rw [h]
  rw [hred]
  refine ⟨?_, ?_, rfl, rfl, rfl, rfl, ?_⟩
  · intro h1 h2 h3 h4
    show fillGray d.ybr (1 + row) (8 + col) = ⟨128, by omega⟩
    unfold fillGray writeRegion
    split_ifs <;> first | rfl | omega
  · intro h1 h2 h3 h4
    constructor
    · show fillGray d.ybr (18 + row) (8 + col) = ⟨128, by omega⟩
      unfold fillGray writeRegion
      split_ifs <;> first | rfl | omega
    · show fillGray d.ybr (18 + row) (24 + col) = ⟨128, by omega⟩
      unfold fillGray writeRegion
      split_ifs <;> first | rfl | omega
  · unfold recordsDiagnostic
    push_neg
    exact ⟨rfl, rfl, rfl, rfl, rfl, rfl, rfl⟩

/-- C6 witness: the amended theorem applied to the concrete empty-reference
state at the top-left luma and chroma cells. -/
theorem claim_C6_witness :
    (performInterPrediction 2 3 decMissing).ybr 1 8 = ⟨128, by omega⟩ ∧
      (performInterPrediction 2 3 decMissing).dec = decMissing.dec :=
  ⟨(claim_C6_amended decMissing 2 3 0 0 rfl).1 (by omega) (by omega) (by omega) (by omega),
    (claim_C6_amended decMissing 2 3 0 0 rfl).2.2.1⟩

theorem clip255_shift_id (q : Fin 256) :
    clip255 (wrap16 (wrap16 (px q * 128) + 64) / 128) = q := by
  have hq : 0 ≤ px q ∧ px q ≤ 255 := by
    unfold px
    constructor
    · exact Int.natCast_nonneg _
    · exact_mod_cast Nat.le_of_lt_succ q.isLt
  have hw : wrap16 (px q * 128) = px q * 128 :=
    wrap16_eq_self ⟨by omega, by omega⟩
  rw [hw]
  have hw2 : wrap16 (px q * 128 + 64) = px q * 128 + 64 :=
    wrap16_eq_self ⟨by omega, by omega⟩
  rw [hw2]
  have hdiv : (px q * 128 + 64) / 128 = px q := by omega
  rw [hdiv]
  unfold clip255
  rw [dif_neg (by omega), dif_neg (by omega)]
  apply Fin.ext
  show (px q).toNat = (q : Nat)
  unfold px
  exact Int.toNat_natCast _

/-- C7: for any motion vector with both fractional components zero, each
luma output pixel of the subpel interpolator interPredictLuma equals the
byte copied by copyBlockFromRefWithOffset from the reference at integer
offset (mv.x/4, mv.y/4) with edge clamping - so the 16x16 luma workspace
regions written by the two paths coincide byte for byte. -/
theorem claim_C7_integer_mv_equiv (ref : YCbCrImage) (mbx mby : Int)
    (mv : motionVector) (row col : Int)
    (hx : mv.x % 4 = 0) (hy : mv.y % 4 = 0) :
    interPredictLumaPixel ref mbx mby mv row col
      = copyLumaPixel ref mbx mby (mv.x / 4) (mv.y / 4) row col := by
  unfold interPredictLumaPixel
  simp only [hx, hy]
  norm_num
  unfold lumaHorizTemp
  norm_num
  have hidx : (mby * 16 + mv.y / 4) + row = mby * 16 + row + mv.y / 4 := by ring
  have hidx2 : (mbx * 16 + mv.x / 4) + col = mbx * 16 + col + mv.x / 4 := by ring
  rw [hidx, hidx2]
  unfold copyLumaPixel
  exact clip255_shift_id _

/-- A concrete 4x4 reference used by the C7 witness. -/
def refFlat : YCbCrImage :=
  { MaxX := 4, MaxY := 4, YStride := 4, CStride := 2, lenY := 16, lenCb := 4, lenCr := 4,
    Y := fun i => if i = 5 then ⟨200, by omega⟩ else ⟨37, by omega⟩,
    Cb := fun _ => ⟨128, by omega⟩, Cr := fun _ => ⟨128, by omega⟩ }

/-- C7 witness: the theorem applied at an integer motion vector (4, -8),
checked against the direct evaluation of both pixel paths. -/
theorem claim_C7_witness :
    ({ x := 4, y := -8 } : motionVector).x % 4 = 0 ∧
      interPredictLumaPixel refFlat 0 1 { x := 4, y := -8 } 1 0
        = copyLumaPixel refFlat 0 1 1 (-2) 1 0 ∧
      copyLumaPixel refFlat 0 1 1 (-2) 1 0 = ⟨37, by omega⟩ :=
  ⟨by decide,
    claim_C7_integer_mv_equiv refFlat 0 1 { x := 4, y := -8 } 1 0 (by decide) (by decide),
    by decide⟩

/-- C8: each SPLITMV chroma block's MV is the (sum + 2) >> 2 rounded mean
of the four corresponding luma sub-block MVs, and when all four sub-MVs of
a quadrant equal M (components in int16 range, positive or negative) the
averaged chroma MV equals M exactly. -/
theorem claim_C8_chroma_avg_roundtrip (subMV : List motionVector) (cr cc : Nat)
    (M : motionVector) (hx : inInt16 M.x) (hy : inInt16 M.y)
    (h00 : subMV.getD ((cr * 2 + 0) * 4 + cc * 2 + 0) mvZero = M)
    (h01 : subMV.getD ((cr * 2 + 0) * 4 + cc * 2 + 1) mvZero = M)
    (h10 : subMV.getD ((cr * 2 + 1) * 4 + cc * 2 + 0) mvZero = M)
    (h11 : subMV.getD ((cr * 2 + 1) * 4 + cc * 2 + 1) mvZero = M) :
    chromaAvgMV subMV cr cc = M := by
  unfold chromaAvgMV
  rw [h00, h01, h10, h11]
  obtain ⟨mx, my⟩ := M
  obtain ⟨hx1, hx2⟩ := hx
  obtain ⟨hy1, hy2⟩ := hy
  dsimp only at hx1 hx2 hy1 hy2
  simp only [motionVector.mk.injEq]
  constructor
  · show wrap16 ((mx + mx + mx + mx + 2) / 4) = mx
    unfold wrap16
    omega
  · show wrap16 ((my + my + my + my + 2) / 4) = my
    unfold wrap16
    omega

/-- C8 witness: the theorem applied at the quadrant (0,0) of a sub-MV
array whose first quadrant is constantly (4, -7). -/
theorem claim_C8_witness :
    inInt16 (4 : Int) ∧
      chromaAvgMV
        [{ x := 4, y := -7 }, { x := 4, y := -7 }, mvZero, mvZero,
         { x := 4, y := -7 }, { x := 4, y := -7 }, mvZero, mvZero,
         mvZero, mvZero, mvZero, mvZero, mvZero, mvZero, mvZero, mvZero] 0 0
        = { x := 4, y := -7 } :=
  ⟨by decide,
    claim_C8_chroma_avg_roundtrip _ 0 0 { x := 4, y := -7 } (by decide) (by decide)
      (by decide) (by decide) (by decide) (by decide)⟩

theorem clampCoord_mem (hi v : Int) (h : 1 ≤ hi) :
    0 ≤ clampCoord hi v ∧ clampCoord hi v ≤ hi - 1 := by
  unfold clampCoord
  split_ifs <;> omega

theorem clampCoordSeq_mem (hi v : Int) (h : 1 ≤ hi) :
    0 ≤ clampCoordSeq hi v ∧ clampCoordSeq hi v ≤ hi - 1 := by
  unfold clampCoordSeq
  dsimp only
  split_ifs <;> omega

theorem flatIdx_bound {H W S L y x : Int} (_hH : 1 ≤ H) (hW : 1 ≤ W) (hWS : W ≤ S)
    (hL : H * S ≤ L) (hy : 0 ≤ y ∧ y ≤ H - 1) (hx : 0 ≤ x ∧ x ≤ W - 1) :
    0 ≤ y * S + x ∧ y * S + x < L := by
  have hS : (1 : Int) ≤ S := le_trans hW hWS
  constructor
  · have hnn : 0 ≤ y * S := mul_nonneg hy.1 (by omega)
    omega
  · have h1 : y * S ≤ (H - 1) * S := mul_le_mul_of_nonneg_right hy.2 (by omega)
    nlinarith

/-- The well-formedness of a reference image per the claim's hypotheses:
YStride covers the width, the luma plane covers MaxY rows, and each chroma
plane is CStride times the 4:2:0 chroma height ceil(MaxY/2), with the
stride covering the chroma width ceil(MaxX/2). -/
def wellFormedRef (ref : YCbCrImage) : Prop :=
  1 ≤ ref.MaxX ∧ 1 ≤ ref.MaxY ∧ ref.MaxX ≤ ref.YStride ∧
  ref.MaxY * ref.YStride ≤ ref.lenY ∧
  1 ≤ ref.CStride ∧ (ref.MaxX + 1) / 2 ≤ ref.CStride ∧
  ref.lenCb = ref.CStride * ((ref.MaxY + 1) / 2) ∧
  ref.lenCr = ref.CStride * ((ref.MaxY + 1) / 2)

instance (ref : YCbCrImage) : Decidable (wellFormedRef ref) := by
  unfold wellFormedRef; infer_instance

/-- A well-formed 16x1 reference image (one pixel tall), for the C9
counterexample. -/
def refH1 : YCbCrImage :=
  { MaxX := 16, MaxY := 1, YStride := 16, CStride := 8, lenY := 16, lenCb := 8, lenCr := 8,
    Y := fun _ => ⟨0, by omega⟩, Cb := fun _ => ⟨0, by omega⟩, Cr := fun _ => ⟨0, by omega⟩ }

/-- C9 counterexample: on a well-formed reference that is one pixel tall,
the chroma path of copyBlockFromRefWithOffset clamps its row by
Rect.Max.Y/2 = 0, producing the flat index -8 at (mbx,mby) = (0,0), row 0,
col 0, zero offset - a negative, out-of-bounds index into ref.Cb.  The
claimed in-bounds property therefore fails for a well-formed reference. -/
theorem claim_C9_counterexample :
    wellFormedRef refH1 ∧
      copyChromaReadIdx refH1 0 0 = -8 ∧
      ¬ (0 ≤ copyChromaReadIdx refH1 0 0) := by
  refine ⟨by decide, by decide, by decide⟩

/-- C9 amended: for a well-formed reference that is at least two pixels
wide and tall, every reference-plane flat index computed by the motion
compensation paths - the clamped luma index (6-tap filtering, 4x4
filtering and the luma byte copy all read through it), the bilinear chroma
index on either plane, and the copy path's chroma index - is in bounds,
for all (even extreme) source coordinates. -/
theorem claim_C9_amended (ref : YCbCrImage) (sy sx : Int) (hwf : wellFormedRef ref)
    (hX2 : 2 ≤ ref.MaxX) (hY2 : 2 ≤ ref.MaxY) :
    (0 ≤ lumaReadIdx ref sy sx ∧ lumaReadIdx ref sy sx < ref.lenY) ∧
    (0 ≤ chromaPlaneReadIdx ref.CStride ref.lenCb sy sx ∧
      chromaPlaneReadIdx ref.CStride ref.lenCb sy sx < ref.lenCb) ∧
    (0 ≤ chromaPlaneReadIdx ref.CStride ref.lenCr sy sx ∧
      chromaPlaneReadIdx ref.CStride ref.lenCr sy sx < ref.lenCr) ∧
    (0 ≤ copyChromaReadIdx ref sy sx ∧ copyChromaReadIdx ref sy sx < ref.lenCb ∧
      copyChromaReadIdx ref sy sx < ref.lenCr) := by
  obtain ⟨hMX, hMY, hXS, hLY, hCS, hXC, hCb, hCr⟩ := hwf
  have hcH : 1 ≤ (ref.MaxY + 1) / 2 := by omega
  refine ⟨?_, ?_, ?_, ?_⟩
  · unfold lumaReadIdx
    exact flatIdx_bound hMY hMX hXS hLY (clampCoord_mem _ _ hMY) (clampCoord_mem _ _ hMX)
  · unfold chromaPlaneReadIdx
    have hph : ref.lenCb / ref.CStride = (ref.MaxY + 1) / 2 := by
      rw [hCb]
      exact Int.mul_ediv_cancel_left _ (by omega)
    rw [hph]
    refine flatIdx_bound hcH hCS le_rfl ?_
      (clampCoordSeq_mem _ _ hcH) (clampCoordSeq_mem _ _ hCS)
    rw [hCb]; nlinarith
  · unfold chromaPlaneReadIdx
    have hph : ref.lenCr / ref.CStride = (ref.MaxY + 1) / 2 := by
      rw [hCr]
      exact Int.mul_ediv_cancel_left _ (by omega)
    rw [hph]
    refine flatIdx_bound hcH hCS le_rfl ?_
      (clampCoordSeq_mem _ _ hcH) (clampCoordSeq_mem _ _ hCS)
    rw [hCr]; nlinarith
  · unfold copyChromaReadIdx
    have hH2 : 1 ≤ ref.MaxY / 2 := by omega
    have hW2 : 1 ≤ ref.MaxX / 2 := by omega
    have hWS2 : ref.MaxX / 2 ≤ ref.CStride := by omega
    have hHL : ref.MaxY / 2 * ref.CStride ≤ ref.lenCb := by
      rw [hCb]
      have hle : ref.MaxY / 2 ≤ (ref.MaxY + 1) / 2 := by omega
      nlinarith
    have hb := flatIdx_bound hH2 hW2 hWS2 hHL
      (clampCoord_mem _ sy hH2) (clampCoord_mem _ sx hW2)
    have hlen : ref.lenCr = ref.lenCb := by rw [hCr, hCb]
    exact ⟨hb.1, hb.2, by rw [hlen]; exact hb.2⟩

/-- A well-formed 2x2 reference image, for the C9 witness. -/
def refTiny2 : YCbCrImage :=
  { MaxX := 2, MaxY := 2, YStride := 2, CStride := 1, lenY := 4, lenCb := 1, lenCr := 1,
    Y := fun _ => ⟨9, by omega⟩, Cb := fun _ => ⟨9, by omega⟩, Cr := fun _ => ⟨9, by omega⟩ }

/-- C9 witness: the amended theorem applied to a concrete 2x2 reference at
the wildly out-of-range source coordinates (-5, 1000). -/
theorem claim_C9_witness :
    wellFormedRef refTiny2 ∧
      (0 ≤ lumaReadIdx refTiny2 (-5) 1000 ∧ lumaReadIdx refTiny2 (-5) 1000 < refTiny2.lenY) ∧
      (0 ≤ copyChromaReadIdx refTiny2 (-5) 1000 ∧
        copyChromaReadIdx refTiny2 (-5) 1000 < refTiny2.lenCb) :=
  ⟨by decide,
    (claim_C9_amended refTiny2 (-5) 1000 (by decide) (by decide) (by decide)).1,
    ⟨(claim_C9_amended refTiny2 (-5) 1000 (by decide) (by decide) (by decide)).2.2.2.1,
      (claim_C9_amended refTiny2 (-5) 1000 (by decide) (by decide) (by decide)).2.2.2.2.1⟩⟩

end VP8
